import Mathlib

/-!
Verification development for the Auto-File-Ingest media ingest server.

Shallow embedding of the classifier (internal/parser), the device inclusion
policy (internal/device) and the transfer engine (internal/transfer), with
theorems settling the specification claims about them.

Strings are modelled as their character sequences (`String.data`); all the
paths and configuration values exercised here are ASCII, where Go's byte-wise
string operations and the character-wise model coincide.
-/

namespace AutoIngest

/-! ## Go standard-library string and path helpers -/

/-- filepath.Base: the last element of the path, after removing trailing
slashes; "." for the empty path and "/" when the path is all slashes. -/
def filepathBase (path : String) : String :=
  if path = "" then "."
  else
    let l := (path.data.reverse.dropWhile (· = '/')).reverse
    if l = [] then "/"
    else ⟨(l.reverse.takeWhile (· ≠ '/')).reverse⟩

/-- Scan for filepath.Ext over the reversed character list: collect characters
until the final dot of the final path element; no dot (or a separator first)
means no extension. -/
def extScan (acc : List Char) : List Char → List Char
  | [] => []
  | c :: rest =>
    if c = '/' then []
    else if c = '.' then '.' :: acc
    else extScan (c :: acc) rest

/-- filepath.Ext: the suffix beginning at the final dot in the final
slash-separated element; empty if there is no dot. -/
def filepathExt (path : String) : String := ⟨extScan [] path.data.reverse⟩

/-- strings.TrimSuffix: remove `tail` from the end of `s` when it is a
suffix, otherwise return `s` unchanged. -/
def trimSuffix (s tail : String) : String :=
  if tail.data.isSuffixOf s.data then ⟨s.data.take (s.data.length - tail.data.length)⟩
  else s

/-- strings.ReplaceAll on character lists: replace each non-overlapping
occurrence of `old` by `new`, scanning left to right. Structural recursion on
a fuel argument so the definition evaluates inside the kernel; every step
consumes at least one input character when `old` is non-empty (all the `old`
values used in this development are the non-empty placeholder tokens), so a
fuel of the input length never runs out. -/
def replaceAllChars (old new : List Char) : Nat → List Char → List Char
  | 0, s => s
  | _, [] => []
  | fuel + 1, c :: rest =>
    if old ≠ [] ∧ old.isPrefixOf (c :: rest) then
      new ++ replaceAllChars old new fuel ((c :: rest).drop old.length)
    else
      c :: replaceAllChars old new fuel rest

/-- strings.ReplaceAll(s, old, new). -/
def replaceAll (s old new : String) : String :=
  ⟨replaceAllChars old.data new.data s.data.length s.data⟩

/-- filepath.Join for two elements. Go's Join drops empty elements, joins with
'/' and applies Clean; Clean is the identity on the already-clean joined paths
arising in this development, so it is omitted. -/
def filepathJoin (a b : String) : String :=
  if a = "" then b else if b = "" then a else a ++ "/" ++ b

/-- filepath.Dir: everything but the last element of the path. -/
def filepathDir (path : String) : String :=
  match path.data.reverse.dropWhile (· ≠ '/') with
  | [] => "."
  | '/' :: [] => "/"
  | '/' :: rest => ⟨rest.reverse⟩
  | _ :: _ => "."

/-- The error component of Go's filepath.Glob. Glob returns a non-nil error
(ErrBadPattern) exactly when the pattern string is malformed; it never reports
"no file matches the pattern" through the error (that case is a nil error with
an empty match list). None of the pattern strings arising in this development
contain ']', '*', '?' or '\\'; on that class a pattern is malformed precisely
when it contains an (unterminated) '['. -/
def globBad (pattern : String) : Bool := pattern.data.contains '['

/-- filepath.Glob against an occupancy oracle (`occupied p = true` iff a file
exists at path `p`): returns (matched paths, whether the error is non-nil).
For a well-formed literal pattern the matches are exactly the path itself when
it exists; crucially, occupancy never influences the error component. -/
def glob (occupied : String → Bool) (pattern : String) : List String × Bool :=
  if globBad pattern then ([], true)
  else (if occupied pattern then [pattern] else [], false)

/-! ## Configuration (internal/config) — the fields the core consumes -/

structure ParsingConfig where
  Pattern : String
  FolderStructure : String
  UnmatchedFolder : String
deriving DecidableEq

structure TransferConfig where
  MaxWorkers : Nat
  VerifyChecksums : Bool
  PriorityPrefixes : List String
deriving DecidableEq

structure DeviceConfig where
  MinSizeBytes : Int
  AllowedFilesystems : List String
  ExcludePatterns : List String
deriving DecidableEq

structure Config where
  DestinationPath : String
  Transfer : TransferConfig
  Parsing : ParsingConfig
  DeviceDetection : DeviceConfig
deriving DecidableEq

/-! ## Filename classifier (internal/parser) -/

/-- A compiled Go regexp, modelled by the behaviour `Parse` consumes from it:
FindStringSubmatch on a 4-capture-group pattern returns a 5-element slice
(whole match plus the 4 groups) exactly when the pattern matches, and `Parse`
only acts on that case. We record the four captured groups, `none` when the
input does not match. -/
structure GoRegexp where
  findSubmatch4 : String → Option (String × String × String × String)

/-- parser.FileInfo. -/
structure FileInfo where
  OriginalPath : String
  FileName : String
  ProjectName : String
  Client : String
  Camera : String
  ClipNumber : String
  Extension : String
  Matched : Bool
deriving DecidableEq

/-- parser.Parser: the compiled pattern plus the configuration. -/
structure Parser where
  pattern : GoRegexp
  config : Config

/-- parser.Parse: take the base name, split off the extension, and try the
4-group pattern on the remainder; on a match populate the four tokens and set
Matched, otherwise leave the tokens at their zero values. -/
def Parse (p : Parser) (filePath : String) : FileInfo :=
  let fileName := filepathBase filePath
  let ext := filepathExt fileName
  let nameWithoutExt := trimSuffix fileName ext
  match p.pattern.findSubmatch4 nameWithoutExt with
  | some (m1, m2, m3, m4) =>
    { OriginalPath := filePath, FileName := fileName, Extension := ext,
      ProjectName := m1, Client := m2, Camera := m3, ClipNumber := m4, Matched := true }
  | none =>
    { OriginalPath := filePath, FileName := fileName, Extension := ext,
      ProjectName := "", Client := "", Camera := "", ClipNumber := "", Matched := false }

/-- parser.GetDestinationPath: unmatched files go to the unmatched folder
under the destination root; matched files go to the folder-structure template
with {client}, {project}, {camera} substituted. -/
def GetDestinationPath (p : Parser) (info : FileInfo) : String :=
  let basePath := p.config.DestinationPath
  if !info.Matched then filepathJoin basePath p.config.Parsing.UnmatchedFolder
  else
    let s1 := replaceAll p.config.Parsing.FolderStructure "{client}" info.Client
    let s2 := replaceAll s1 "{project}" info.ProjectName
    let s3 := replaceAll s2 "{camera}" info.Camera
    filepathJoin basePath s3

/-- parser.GetFullDestinationPath: the destination directory plus the leaf
name — clip number concatenated with the extension when matched, the original
file name when unmatched. -/
def GetFullDestinationPath (p : Parser) (info : FileInfo) : String :=
  let destDir := GetDestinationPath p info
  if info.Matched then filepathJoin destDir (info.ClipNumber ++ info.Extension)
  else filepathJoin destDir info.FileName

/-- fmt.Sprintf("%s_v%d%s", nameWithoutExt, version, ext). -/
def versionedCandidate (nameWithoutExt ext : String) (version : Nat) : String :=
  nameWithoutExt ++ "_v" ++ toString version ++ ext

/-- The version-probing loop of parser.GetUniqueDestinationPath: build the
candidate name for the current version, probe it with filepath.Glob, return it
when the probe's error is nil, otherwise increment the version and give up
with a "too many versions" error once the incremented version exceeds 1000. -/
def versionLoop (occupied : String → Bool) (dir nameWithoutExt ext destPath : String)
    (version : Nat) : Except String String :=
  let versionedName := versionedCandidate nameWithoutExt ext version
  let versionedPath := filepathJoin dir versionedName
  if (glob occupied versionedPath).2 = false then Except.ok versionedPath
  else if h : version + 1 > 1000 then
    Except.error ("too many versions of file: " ++ destPath)
  else versionLoop occupied dir nameWithoutExt ext destPath (version + 1)
termination_by 1001 - version
decreasing_by omega

/-- parser.GetUniqueDestinationPath: probe the computed full destination path
with filepath.Glob and return it when the probe's error is nil ("file doesn't
exist, use as is" per the source comment); otherwise enter the version loop
starting at _v2. The occupancy oracle is threaded through to the Glob model. -/
def GetUniqueDestinationPath (occupied : String → Bool) (p : Parser) (info : FileInfo) :
    Except String String :=
  let destPath := GetFullDestinationPath p info
  if (glob occupied destPath).2 = false then Except.ok destPath
  else
    let dir := filepathDir destPath
    let ext := filepathExt destPath
    let nameWithoutExt := trimSuffix (filepathBase destPath) ext
    versionLoop occupied dir nameWithoutExt ext destPath 2

/-! ### The configured pattern ^([^_]+)_([^_]+)_(ACam|BCam|CCam)_(.+)$ -/

/-- Split a character list at its first '_': the characters before it (which
therefore contain no '_') and the characters after it; `none` when there is no
underscore at all. -/
def splitFirstUnderscore : List Char → Option (List Char × List Char)
  | [] => none
  | c :: cs =>
    if c = '_' then some ([], cs)
    else
      match splitFirstUnderscore cs with
      | some (a, r) => some (c :: a, r)
      | none => none

def cameraTokens : List (List Char) := [['A', 'C', 'a', 'm'], ['B', 'C', 'a', 'm'], ['C', 'C', 'a', 'm']]

/-- FindStringSubmatch of the compiled pattern
^([^_]+)_([^_]+)_(ACam|BCam|CCam)_(.+)$ under Go's (RE2) semantics. Because
[^_]+ cannot cross an underscore, the first two groups are forced to the
segments before the first and the second underscore, the camera alternation
must match the four characters that follow, the next character must be '_',
and (.+) captures the non-empty remainder; no other backtracking split can
succeed. -/
def matchCamChars (s : List Char) : Option (List Char × List Char × List Char × List Char) :=
  match splitFirstUnderscore s with
  | none => none
  | some (a, r1) =>
    if a = [] then none
    else
      match splitFirstUnderscore r1 with
      | none => none
      | some (b, r2) =>
        if b = [] then none
        else
          match r2 with
          | c1 :: c2 :: c3 :: c4 :: '_' :: d =>
            if cameraTokens.contains [c1, c2, c3, c4] && !d.isEmpty then
              some (a, b, [c1, c2, c3, c4], d)
            else none
          | _ => none

/-- The configured pattern as a string-level submatch function. -/
def matchCam (s : String) : Option (String × String × String × String) :=
  match matchCamChars s.data with
  | some (a, b, c, d) => some (⟨a⟩, ⟨b⟩, ⟨c⟩, ⟨d⟩)
  | none => none

/-- The compiled form of the configured pattern. -/
def defaultGoPattern : GoRegexp := ⟨matchCam⟩

/-- A parser over the configured pattern with the given destination root,
folder-structure template and fallback folder. -/
def mkParser (root template fallback : String) : Parser :=
  { pattern := defaultGoPattern
    config := {
      DestinationPath := root
      Transfer := { MaxWorkers := 4, VerifyChecksums := true, PriorityPrefixes := [] }
      Parsing := { Pattern := "^([^_]+)_([^_]+)_(ACam|BCam|CCam)_(.+)$",
                   FolderStructure := template,
                   UnmatchedFolder := fallback }
      DeviceDetection := { MinSizeBytes := 0, AllowedFilesystems := [], ExcludePatterns := [] } } }

/-- The parser of the end-to-end scenario: root /mnt/storage, template
{client}/{project}/{camera}, fallback Unsorted. -/
def specParser : Parser := mkParser "/mnt/storage" "{client}/{project}/{camera}" "Unsorted"

/-! ## Device inclusion policy (internal/device) -/

/-- device.Device. -/
structure Device where
  Name : String
  Path : String
  MountPath : String
  Filesystem : String
  Size : Int
  Label : String
deriving DecidableEq

/-- strings.EqualFold, restricted to ASCII case folding (every filesystem
name exercised here is ASCII, where Go's Unicode simple folding and
ASCII lowercasing agree). -/
def equalFold (s t : String) : Bool := s.data.map Char.toLower == t.data.map Char.toLower

/-- Does `sub` occur as a contiguous run inside the second list? -/
def hasSubstring (sub : List Char) : List Char → Bool
  | [] => sub.isEmpty
  | c :: rest => sub.isPrefixOf (c :: rest) || hasSubstring sub rest

/-- strings.Contains(s, sub). -/
def goContains (s sub : String) : Bool := hasSubstring sub.data s.data

/-- device.Manager.IsAllowedDevice: reject below the minimum size; when a
filesystem allow-list is configured, reject filesystems that are not a
(case-insensitive) member; reject paths containing any exclude pattern as a
substring; otherwise allow. Pure: it reads only the device fields and the
configuration. -/
def IsAllowedDevice (cfg : Config) (device : Device) : Bool :=
  if device.Size < cfg.DeviceDetection.MinSizeBytes then false
  else if cfg.DeviceDetection.AllowedFilesystems.length > 0 &&
      !(cfg.DeviceDetection.AllowedFilesystems.any fun fsName =>
          equalFold device.Filesystem fsName || device.Filesystem == fsName) then false
  else if cfg.DeviceDetection.ExcludePatterns.any (fun pat => goContains device.Path pat) then false
  else true

/-! ## Transfer engine (internal/transfer) -/

/-- The filesystem's behaviour on one job, fixed up front so the engine is a
function of it: which of transferFile's I/O operations fail, and the SHA-256
digests involved (abstracted to Nat): `srcDigest` is the digest of the source
stream accumulated during the copy, `destDigest` the digest of the destination
as re-read after the copy (they differ exactly when the destination was
corrupted between write and re-read). -/
structure JobWorld where
  mkdirErr : Bool
  openErr : Bool
  createErr : Bool
  copyErr : Bool
  verifyReadErr : Bool
  srcDigest : Nat
  destDigest : Nat
deriving DecidableEq

/-- What transferFile did: the error it returned (none on success) and
whether it deleted the destination file (os.Remove on checksum mismatch). -/
structure TransferOutcome where
  err : Option String
  destRemoved : Bool
deriving DecidableEq

/-- transfer.Manager.transferFile: create the destination directory, open the
source, create the destination; with verification enabled copy while hashing
the source, re-read and hash the destination, and on digest mismatch delete
the destination and fail with "checksum mismatch"; with verification disabled
perform a plain copy. Error strings stand for the error values returned at
the corresponding return sites of the source. -/
def transferFile (verify : Bool) (w : JobWorld) : TransferOutcome :=
  if w.mkdirErr then { err := some "mkdir", destRemoved := false }
  else if w.openErr then { err := some "open", destRemoved := false }
  else if w.createErr then { err := some "create", destRemoved := false }
  else if verify then
    if w.copyErr then { err := some "copy", destRemoved := false }
    else if w.verifyReadErr then { err := some "verify", destRemoved := false }
    else if w.srcDigest ≠ w.destDigest then { err := some "checksum mismatch", destRemoved := true }
    else { err := none, destRemoved := false }
  else
    if w.copyErr then { err := some "copy", destRemoved := false }
    else { err := none, destRemoved := false }

/-- transfer.Manager.isPriorityFile: true when the byte-indexed slice of the
file name of the length of some configured priority value equals that
value (an exact, case-sensitive leading-segment comparison). -/
def isPriorityFile (priorityValues : List String) (fileName : String) : Bool :=
  priorityValues.any fun pre =>
    decide (pre.data.length ≤ fileName.data.length) && fileName.data.take pre.data.length == pre.data

/-- transfer.TransferStats (the counters; the start time and lock carry no
ingest content). -/
structure TransferStats where
  TotalFiles : Nat
  ProcessedFiles : Nat
  TotalBytes : Int
  TransferredBytes : Int
  FailedFiles : Nat
deriving DecidableEq

/-- transfer.FileTransfer: one job. `Info` is the FileInfo field of the
source; `world` is the model's record of how the filesystem will treat this
job's copy. -/
structure FileTransfer where
  SourcePath : String
  DestinationPath : String
  Info : FileInfo
  Size : Int
  Priority : Bool
  world : JobWorld
deriving DecidableEq

/-- One source file as TransferFiles sees it: its path together with the
outcomes of the filesystem operations the run performs on it (os.Stat's
error and IsDir answer, and the copy-phase behaviour). -/
structure SourceFile where
  path : String
  statErr : Bool
  isDir : Bool
  size : Int
  world : JobWorld
deriving DecidableEq

/-- The collaborators TransferFiles calls, fixed as functions: the configured
priority values and verification flag, the parser's Parse, and the composite
GetUniqueDestinationPath call (which for the concrete parser instantiates to
`fun path => GetUniqueDestinationPath occupied p (Parse p path)`). -/
structure ManagerModel where
  priorityValues : List String
  verify : Bool
  parseInfo : String → FileInfo
  getDest : String → Except String String

/-- State of the scan-and-categorize loop at the top of TransferFiles. -/
structure ScanState where
  priorityFiles : List FileTransfer
  normalFiles : List FileTransfer
  stats : TransferStats

/-- One iteration of the scan loop: skip files whose stat fails, directories,
and files whose destination resolution fails (each with `continue` in the
source — they never reach the statistics); otherwise build the job, count it
into TotalFiles/TotalBytes, and append it to the priority or the normal
list. -/
def scanStep (m : ManagerModel) (st : ScanState) (f : SourceFile) : ScanState :=
  if f.statErr then st
  else if f.isDir then st
  else
    match m.getDest f.path with
    | Except.error _ => st
    | Except.ok destPath =>
      let job : FileTransfer := {
        SourcePath := f.path
        DestinationPath := destPath
        Info := m.parseInfo f.path
        Size := f.size
        Priority := isPriorityFile m.priorityValues (filepathBase f.path)
        world := f.world }
      let st1 : ScanState := { st with stats := { st.stats with
        TotalFiles := st.stats.TotalFiles + 1
        TotalBytes := st.stats.TotalBytes + f.size } }
      if job.Priority then { st1 with priorityFiles := st1.priorityFiles ++ [job] }
      else { st1 with normalFiles := st1.normalFiles ++ [job] }

/-- The statistics reset to zero at the top of TransferFiles. -/
def initialStats : TransferStats :=
  { TotalFiles := 0, ProcessedFiles := 0, TotalBytes := 0, TransferredBytes := 0, FailedFiles := 0 }

/-- The scan loop over the whole file list. -/
def scanState (m : ManagerModel) (files : List SourceFile) : ScanState :=
  files.foldl (scanStep m) { priorityFiles := [], normalFiles := [], stats := initialStats }

/-- The sequence in which jobs enter the shared work queue: all priority jobs
first, then all normal jobs. -/
def jobsQueue (m : ManagerModel) (files : List SourceFile) : List FileTransfer :=
  (scanState m files).priorityFiles ++ (scanState m files).normalFiles

/-- The per-job body of transfer.Manager.worker: run transferFile, send its
error to the results channel, and under the statistics lock increment
ProcessedFiles and, on success, TransferredBytes. -/
def processJob (verify : Bool) (stats : TransferStats) (job : FileTransfer) :
    TransferStats × Option String :=
  let out := transferFile verify job.world
  ({ stats with
      ProcessedFiles := stats.ProcessedFiles + 1
      TransferredBytes :=
        if out.err = none then stats.TransferredBytes + job.Size else stats.TransferredBytes },
   out.err)

/-- The worker pool consuming the queue until it is closed and drained. The
counter updates commute (each job increments ProcessedFiles exactly once,
under the single lock), so the aggregate is modelled by consumption in
enqueue order; the returned list is the drained results channel. -/
def runWorkers (verify : Bool) : TransferStats → List FileTransfer →
    TransferStats × List (Option String)
  | stats, [] => (stats, [])
  | stats, job :: rest =>
    let r1 := processJob verify stats job
    let r2 := runWorkers verify r1.1 rest
    (r2.1, r1.2 :: r2.2)

/-- The result-collection loop after the final barrier: count every non-nil
error into FailedFiles. -/
def collectResults (stats : TransferStats) (results : List (Option String)) : TransferStats :=
  { stats with FailedFiles := stats.FailedFiles + results.countP (fun r => r.isSome) }

/-- transfer.Manager.TransferFiles: reset the statistics, scan and categorize,
enqueue priority jobs then normal jobs, run the worker pool to completion,
collect the per-job errors into FailedFiles, and return nil. Result: the
final statistics, the enqueue order, and the function's returned error value
(always `none` — per-file failures never propagate out of the engine). -/
def TransferFiles (m : ManagerModel) (files : List SourceFile) :
    TransferStats × List FileTransfer × Option String :=
  let scanned := scanState m files
  let queue := (scanned.priorityFiles ++ scanned.normalFiles : List FileTransfer)
  let r := runWorkers m.verify scanned.stats queue
  (collectResults r.1 r.2, queue, none)

/-- A file is eligible for dispatch (reaches job creation in the scan loop)
when its stat succeeds, it is not a directory, and its destination resolves. -/
def eligible (m : ManagerModel) (f : SourceFile) : Bool :=
  !f.statErr && !f.isDir &&
    (match m.getDest f.path with
     | Except.ok _ => true
     | Except.error _ => false)

/-- Propositional all-elements predicate used in the claim statements. -/
def ListAll (p : α → Prop) : List α → Prop
  | [] => True
  | x :: xs => p x ∧ ListAll p xs

/-- Invariant of the scan-and-categorize loop: no file has been processed or
failed yet, TotalFiles counts exactly the created jobs, the two job lists are
flagged consistently, and every job's flag is the isPriorityFile decision on
its base name. -/
def ScanInv (m : ManagerModel) (st : ScanState) : Prop :=
  st.stats.ProcessedFiles = 0 ∧
  st.stats.FailedFiles = 0 ∧
  st.stats.TotalFiles = st.priorityFiles.length + st.normalFiles.length ∧
  ListAll (fun j => j.Priority = true) st.priorityFiles ∧
  ListAll (fun j => j.Priority = false) st.normalFiles ∧
  ListAll (fun j => j.Priority = isPriorityFile m.priorityValues (filepathBase j.SourcePath))
    st.priorityFiles ∧
  ListAll (fun j => j.Priority = isPriorityFile m.priorityValues (filepathBase j.SourcePath))
    st.normalFiles

/-! ## Concrete instances used in the claim proofs and witnesses -/

/-- An occupancy oracle with a pre-existing file at the destination the
scenario computes for random_video.mp4. -/
def occupiedPre : String → Bool := fun s => s == "/mnt/storage/Unsorted/random_video.mp4"

/-- An occupancy oracle with no pre-existing files. -/
def noFiles : String → Bool := fun _ => false

/-- A job the filesystem treats perfectly: no errors, matching digests. -/
def okWorld : JobWorld :=
  { mkdirErr := false, openErr := false, createErr := false, copyErr := false,
    verifyReadErr := false, srcDigest := 7, destDigest := 7 }

/-- A job whose destination is corrupted between write and re-read: the copy
itself succeeds but the re-read digest differs from the source digest. -/
def mismatchWorld : JobWorld :=
  { mkdirErr := false, openErr := false, createErr := false, copyErr := false,
    verifyReadErr := false, srcDigest := 3, destDigest := 4 }

/-- The composite destination-resolution call TransferFiles makes per file,
for the scenario parser over an empty filesystem. -/
def specGetDest : String → Except String String :=
  fun path => GetUniqueDestinationPath noFiles specParser (Parse specParser path)

/-- The transfer manager of the scenario configuration. -/
def specManager : ManagerModel :=
  { priorityValues := [], verify := true, parseInfo := Parse specParser, getDest := specGetDest }

/-- A regular file whose name contains an unterminated '[' — a malformed Glob
pattern — so every existence probe for it errors and the version loop
exhausts. -/
def badGlobFile : SourceFile :=
  { path := "bad[file.mp4", statErr := false, isDir := false, size := 5, world := okWorld }

/-! ## Helper lemmas -/

/-- The error component of a Glob probe is determined by the pattern alone:
whether anything occupies the probed path never influences it. -/
theorem glob_snd (occ : String → Bool) (pat : String) : (glob occ pat).2 = globBad pat := by
  unfold glob
  split <;> simp_all

theorem listAll_append {α : Type} {p : α → Prop} {l1 l2 : List α} :
    ListAll p (l1 ++ l2) ↔ ListAll p l1 ∧ ListAll p l2 := by
  induction l1 with
  | nil => simp [ListAll]
  | cons x xs ih => simp [ListAll, ih, and_assoc]

/-- The version loop never reads the occupancy oracle's answer. -/
theorem versionLoop_occ_irrel (occ occ' : String → Bool) (dir name ext dest : String) :
    ∀ (k v : Nat), 1001 ≤ v + k →
      versionLoop occ dir name ext dest v = versionLoop occ' dir name ext dest v := by
  intro k
  induction k with
  | zero =>
    intro v hv
    conv_lhs => rw [versionLoop]
    conv_rhs => rw [versionLoop]
    simp only [glob_snd]
    split
    · rfl
    · rw [dif_pos (by omega), dif_pos (by omega)]
  | succ k ih =>
    intro v hv
    conv_lhs => rw [versionLoop]
    conv_rhs => rw [versionLoop]
    simp only [glob_snd]
    split
    · rfl
    · by_cases hgt : v + 1 > 1000
      · rw [dif_pos hgt, dif_pos hgt]
      · rw [dif_neg hgt, dif_neg hgt]
        exact ih (v + 1) (by omega)

/-- When every versioned candidate is a malformed Glob pattern, the loop runs
all the way to the "too many versions" error. -/
theorem versionLoop_exhausts (occ : String → Bool) (dir name ext dest : String)
    (hbad : ∀ v : Nat, globBad (filepathJoin dir (versionedCandidate name ext v)) = true) :
    ∀ (k v : Nat), v + k = 1000 →
      versionLoop occ dir name ext dest v
        = Except.error ("too many versions of file: " ++ dest) := by
  intro k
  induction k with
  | zero =>
    intro v hv
    conv_lhs => rw [versionLoop]
    simp only [glob_snd, hbad]
    rw [if_neg (by simp), dif_pos (by omega)]
  | succ k ih =>
    intro v hv
    conv_lhs => rw [versionLoop]
    simp only [glob_snd, hbad]
    rw [if_neg (by simp), dif_neg (by omega)]
    exact ih (v + 1) (by omega)

/-- A '[' in the second component survives a path join. -/
theorem globBad_join_right (a b : String) (h : '[' ∈ b.data) :
    globBad (filepathJoin a b) = true := by
  unfold filepathJoin globBad
  by_cases ha : a = ""
  · rw [if_pos ha]
    exact List.elem_eq_true_of_mem h
  · rw [if_neg ha]
    by_cases hb : b = ""
    · subst hb
      simp at h
    · rw [if_neg hb]
      exact List.elem_eq_true_of_mem (by
        show '[' ∈ (a ++ "/" ++ b).data
        rw [show (a ++ "/" ++ b).data = (a ++ "/").data ++ b.data from rfl]
        exact List.mem_append_right _ h)

/-- Every versioned candidate for the bad[file destination is a malformed
Glob pattern: the '[' of the name survives into every candidate. -/
theorem badfile_candidates_bad :
    ∀ v : Nat, globBad (filepathJoin "/mnt/storage/Unsorted"
        (versionedCandidate "bad[file" ".mp4" v)) = true := by
  intro v
  apply globBad_join_right
  show '[' ∈ ("bad[file" ++ "_v" ++ toString v ++ ".mp4").data
  rw [show ("bad[file" ++ "_v" ++ toString v ++ ".mp4").data
        = ("bad[file" ++ "_v").data ++ (toString v ++ ".mp4").data from rfl]
  exact List.mem_append_left _ (by decide)

/-- The destination of bad[file.mp4 cannot be probed (every Glob of it and of
its versioned candidates errors), so GetUniqueDestinationPath exhausts the
version loop and fails. -/
theorem specGetDest_badfile :
    specGetDest "bad[file.mp4"
      = Except.error "too many versions of file: /mnt/storage/Unsorted/bad[file.mp4" := by
  unfold specGetDest
  have hdest : GetFullDestinationPath specParser (Parse specParser "bad[file.mp4")
      = "/mnt/storage/Unsorted/bad[file.mp4" := by decide
  unfold GetUniqueDestinationPath
  rw [hdest]
  simp only [glob_snd]
  rw [if_neg (by decide)]
  rw [show filepathDir "/mnt/storage/Unsorted/bad[file.mp4" = "/mnt/storage/Unsorted" from by decide]
  rw [show filepathExt "/mnt/storage/Unsorted/bad[file.mp4" = ".mp4" from by decide]
  rw [show trimSuffix (filepathBase "/mnt/storage/Unsorted/bad[file.mp4") ".mp4" = "bad[file" from by decide]
  exact versionLoop_exhausts noFiles _ _ _ _ badfile_candidates_bad 998 2 (by omega)

/-! ## Claim theorems -/

/-- C1: The claim states that GetUniqueDestinationPath checks whether the
computed full destination path is already occupied and, when it is, probes
_v2, _v3, ... candidates until an unoccupied one is found. The code does not:
filepath.Glob's error reports only pattern malformedness, never occupancy, so
the function returns the computed path unchanged even when it is occupied,
and its result is entirely independent of the occupancy oracle. Evaluated
here at the failing input: a pre-existing file at
/mnt/storage/Unsorted/random_video.mp4 does not trigger versioning. -/
theorem getUniqueDestinationPath_ignores_occupancy :
    GetUniqueDestinationPath occupiedPre specParser (Parse specParser "random_video.mp4")
        = Except.ok "/mnt/storage/Unsorted/random_video.mp4"
  ∧ occupiedPre "/mnt/storage/Unsorted/random_video.mp4" = true
  ∧ ∀ (occ occ' : String → Bool) (p : Parser) (info : FileInfo),
      GetUniqueDestinationPath occ p info = GetUniqueDestinationPath occ' p info := by
  refine ⟨rfl, rfl, ?_⟩
  intro occ occ' p info
  unfold GetUniqueDestinationPath
  simp only [glob_snd]
  split
  · rfl
  · exact versionLoop_occ_irrel occ occ' _ _ _ _ 999 2 (by omega)

/-- C3: With the scenario configuration, the three inputs of the end-to-end
scenario resolve to exactly the specified destination paths; in general a
matched file's leaf name is its clip-remainder token concatenated with the
original extension, and an unmatched file keeps its original file name. -/
theorem destination_paths_end_to_end :
    GetFullDestinationPath specParser (Parse specParser "BrandVideo_Nike_ACam_001.mp4")
        = "/mnt/storage/Nike/BrandVideo/ACam/001.mp4"
  ∧ GetFullDestinationPath specParser (Parse specParser "Interview_Tesla_CCam_Take5.mxf")
        = "/mnt/storage/Tesla/Interview/CCam/Take5.mxf"
  ∧ GetFullDestinationPath specParser (Parse specParser "random_video.mp4")
        = "/mnt/storage/Unsorted/random_video.mp4"
  ∧ (∀ (p : Parser) (info : FileInfo), info.Matched = true →
        GetFullDestinationPath p info
          = filepathJoin (GetDestinationPath p info) (info.ClipNumber ++ info.Extension))
  ∧ (∀ (p : Parser) (info : FileInfo), info.Matched = false →
        GetFullDestinationPath p info
          = filepathJoin (GetDestinationPath p info) info.FileName) := by
  refine ⟨by decide, by decide, by decide, ?_, ?_⟩
  · intro p info h
    simp [GetFullDestinationPath, h]
  · intro p info h
    simp [GetFullDestinationPath, h]

/-- C3 witness: the general leaf-name clauses applied to the concrete matched
and unmatched scenario files. -/
theorem destination_paths_end_to_end_witness :
    GetFullDestinationPath specParser (Parse specParser "BrandVideo_Nike_ACam_001.mp4")
        = filepathJoin (GetDestinationPath specParser (Parse specParser "BrandVideo_Nike_ACam_001.mp4"))
            ((Parse specParser "BrandVideo_Nike_ACam_001.mp4").ClipNumber
              ++ (Parse specParser "BrandVideo_Nike_ACam_001.mp4").Extension)
  ∧ GetFullDestinationPath specParser (Parse specParser "random_video.mp4")
        = filepathJoin (GetDestinationPath specParser (Parse specParser "random_video.mp4"))
            (Parse specParser "random_video.mp4").FileName :=
  ⟨destination_paths_end_to_end.2.2.2.1 specParser
      (Parse specParser "BrandVideo_Nike_ACam_001.mp4") (by decide),
   destination_paths_end_to_end.2.2.2.2 specParser
      (Parse specParser "random_video.mp4") (by decide)⟩

/-- C7: With verification enabled, a job whose I/O succeeds but whose source
digest and post-copy destination digest differ is failed with "checksum
mismatch" and its destination file is deleted; with verification disabled a
completed byte copy is reported successful, and the digests are never
consulted, so the same corruption goes undetected. -/
theorem transferFile_checksum_verification :
    (∀ w : JobWorld, w.mkdirErr = false → w.openErr = false → w.createErr = false →
        w.copyErr = false → w.verifyReadErr = false → w.srcDigest ≠ w.destDigest →
        transferFile true w = { err := some "checksum mismatch", destRemoved := true })
  ∧ (∀ w : JobWorld, w.mkdirErr = false → w.openErr = false → w.createErr = false →
        w.copyErr = false → transferFile false w = { err := none, destRemoved := false })
  ∧ (∀ (w : JobWorld) (d1 d2 : Nat),
        transferFile false { w with srcDigest := d1, destDigest := d2 }
          = transferFile false w) := by
  refine ⟨?_, ?_, ?_⟩
  · intro w h1 h2 h3 h4 h5 h6
    simp [transferFile, h1, h2, h3, h4, h5, h6]
  · intro w h1 h2 h3 h4
    simp [transferFile, h1, h2, h3, h4]
  · intro w d1 d2
    simp [transferFile]

/-- C7 witness: the corrupted-destination world is detected and cleaned up
with verification on, and sails through as success with verification off. -/
theorem transferFile_checksum_verification_witness :
    transferFile true mismatchWorld = { err := some "checksum mismatch", destRemoved := true }
  ∧ transferFile false mismatchWorld = { err := none, destRemoved := false } :=
  ⟨transferFile_checksum_verification.1 mismatchWorld rfl rfl rfl rfl rfl (by decide),
   transferFile_checksum_verification.2.1 mismatchWorld rfl rfl rfl rfl⟩

/-- C10: With no configured priority values no file is priority; with the
empty string configured as a priority value every file is priority. -/
theorem priorityPrefixes_empty_cases :
    (∀ fileName : String, isPriorityFile [] fileName = false)
  ∧ (∀ (vals : List String) (fileName : String), "" ∈ vals →
        isPriorityFile vals fileName = true) := by
  constructor
  · intro fileName
    rfl
  · intro vals fileName hmem
    unfold isPriorityFile
    rw [List.any_eq_true]
    exact ⟨"", hmem, by simp⟩

/-- C10 witness: both cases at a concrete file name. -/
theorem priorityPrefixes_empty_cases_witness :
    isPriorityFile [] "clip.mp4" = false ∧ isPriorityFile [""] "clip.mp4" = true :=
  ⟨priorityPrefixes_empty_cases.1 "clip.mp4",
   priorityPrefixes_empty_cases.2 [""] "clip.mp4" (by decide)⟩

/-- C8: The inclusion policy allows a device exactly when it is at least the
configured minimum size, its filesystem is a case-insensitive member of the
allow-list whenever one is configured, and its path contains none of the
exclude substrings; the decision is a pure function of the device fields and
the configuration. -/
theorem isAllowedDevice_characterization (cfg : Config) (device : Device) :
    IsAllowedDevice cfg device = true ↔
      (cfg.DeviceDetection.MinSizeBytes ≤ device.Size
       ∧ (cfg.DeviceDetection.AllowedFilesystems = []
          ∨ ∃ fsName, fsName ∈ cfg.DeviceDetection.AllowedFilesystems
              ∧ (equalFold device.Filesystem fsName = true ∨ device.Filesystem = fsName))
       ∧ ∀ pat, pat ∈ cfg.DeviceDetection.ExcludePatterns →
           goContains device.Path pat = false) := by
  unfold IsAllowedDevice
  split_ifs with h1 h2 h3
  · simp only [Bool.false_eq_true, false_iff]
    rintro ⟨hle, -, -⟩
    omega
  · simp only [Bool.false_eq_true, false_iff]
    rintro ⟨-, hfs, -⟩
    rw [Bool.and_eq_true, Bool.not_eq_true', List.any_eq_false] at h2
    rcases hfs with hempty | ⟨fsName, hmem, hor⟩
    · rw [hempty] at h2
      simp at h2
    · have := h2.2 fsName hmem
      rw [Bool.or_eq_true, beq_iff_eq] at this
      rcases hor with hf | hf
      · exact this (Or.inl hf)
      · exact this (Or.inr hf)
  · simp only [Bool.false_eq_true, false_iff]
    rintro ⟨-, -, hall⟩
    rw [List.any_eq_true] at h3
    obtain ⟨pat, hmem, hc⟩ := h3
    rw [hall pat hmem] at hc
    cases hc
  · simp only [true_iff]
    refine ⟨by omega, ?_, ?_⟩
    · rw [Bool.and_eq_true] at h2
      push_neg at h2
      by_cases hempty : cfg.DeviceDetection.AllowedFilesystems = []
      · exact Or.inl hempty
      · have hlen : decide (cfg.DeviceDetection.AllowedFilesystems.length > 0) = true := by
          rw [decide_eq_true_eq]
          exact List.length_pos.2 hempty
        have hany := h2 hlen
        have hany2 : (cfg.DeviceDetection.AllowedFilesystems.any fun fsName =>
            equalFold device.Filesystem fsName || device.Filesystem == fsName) = true := by
          revert hany
          cases cfg.DeviceDetection.AllowedFilesystems.any fun fsName =>
            equalFold device.Filesystem fsName || device.Filesystem == fsName <;> simp
        rw [List.any_eq_true] at hany2
        obtain ⟨fsName, hmem, hpred⟩ := hany2
        rw [Bool.or_eq_true, beq_iff_eq] at hpred
        exact Or.inr ⟨fsName, hmem, hpred⟩
    · intro pat hmem
      rw [Bool.not_eq_true, List.any_eq_false] at h3
      have hpat := h3 pat hmem
      revert hpat
      cases goContains device.Path pat <;> simp

/-- C8 witness: the characterization applied to a concrete configuration and
a device that passes all three checks. -/
theorem isAllowedDevice_characterization_witness :
    IsAllowedDevice
        { DestinationPath := "/mnt/storage"
          Transfer := { MaxWorkers := 4, VerifyChecksums := true, PriorityPrefixes := [] }
          Parsing := { Pattern := "", FolderStructure := "", UnmatchedFolder := "" }
          DeviceDetection :=
            { MinSizeBytes := 1000, AllowedFilesystems := ["vfat", "exFAT"],
              ExcludePatterns := ["loop"] } }
        { Name := "sdb1", Path := "/dev/sdb1", MountPath := "", Filesystem := "VFAT",
          Size := 5000, Label := "CARD" } = true :=
  (isAllowedDevice_characterization _ _).2
    ⟨by decide, Or.inr ⟨"vfat", by decide, Or.inl (by decide)⟩, by decide⟩

/-! ## Run-model lemmas -/

/-- One scan step preserves the scan invariant. -/
theorem scanStep_inv {m : ManagerModel} {st : ScanState} (f : SourceFile)
    (h : ScanInv m st) : ScanInv m (scanStep m st f) := by
  obtain ⟨h1, h2, h3, h4, h5, h6, h7⟩ := h
  unfold scanStep
  split
  · exact ⟨h1, h2, h3, h4, h5, h6, h7⟩
  · split
    · exact ⟨h1, h2, h3, h4, h5, h6, h7⟩
    · split
      · exact ⟨h1, h2, h3, h4, h5, h6, h7⟩
      · dsimp only
        split
        · next hpt =>
          refine ⟨h1, h2, ?_, ?_, h5, ?_, h7⟩
          · simp only [List.length_append, List.length_cons, List.length_nil]
            omega
          · exact listAll_append.2 ⟨h4, hpt, trivial⟩
          · exact listAll_append.2 ⟨h6, rfl, trivial⟩
        · next hpf =>
          refine ⟨h1, h2, ?_, h4, ?_, h6, ?_⟩
          · simp only [List.length_append, List.length_cons, List.length_nil]
            omega
          · exact listAll_append.2 ⟨h5, by simpa using hpf, trivial⟩
          · exact listAll_append.2 ⟨h7, rfl, trivial⟩

/-- The scan invariant holds after folding the scan step over any file list. -/
theorem foldl_scan_inv (m : ManagerModel) :
    ∀ (files : List SourceFile) (st : ScanState),
      ScanInv m st → ScanInv m (files.foldl (scanStep m) st) := by
  intro files
  induction files with
  | nil => intro st h; exact h
  | cons f fs ih => intro st h; exact ih _ (scanStep_inv f h)

/-- The scan invariant for a whole run. -/
theorem scan_inv (m : ManagerModel) (files : List SourceFile) :
    ScanInv m (scanState m files) := by
  unfold scanState
  exact foldl_scan_inv m files _ ⟨rfl, rfl, rfl, trivial, trivial, trivial, trivial⟩

/-- A scan step counts one file into TotalFiles exactly when the file is
eligible for dispatch. -/
theorem scanStep_total (m : ManagerModel) (st : ScanState) (f : SourceFile) :
    (scanStep m st f).stats.TotalFiles
      = st.stats.TotalFiles + (if eligible m f = true then 1 else 0) := by
  unfold scanStep
  split
  · next hs =>
    have he : eligible m f = false := by simp [eligible, hs]
    rw [he]
    simp
  · next hs =>
    split
    · next hd =>
      have he : eligible m f = false := by simp [eligible, hd]
      rw [he]
      simp
    · next hd =>
      split
      · next e heq =>
        have he : eligible m f = false := by simp [eligible, hs, hd, heq]
        rw [he]
        simp
      · next dest heq =>
        have he : eligible m f = true := by simp [eligible, hs, hd, heq]
        have hone : (if eligible m f = true then 1 else 0) = 1 := by rw [he]; rfl
        rw [hone]
        dsimp only
        split
        all_goals rfl

/-- TotalFiles after the scan counts exactly the eligible files. -/
theorem scan_total_count (m : ManagerModel) :
    ∀ (files : List SourceFile) (st : ScanState),
      (files.foldl (scanStep m) st).stats.TotalFiles
        = st.stats.TotalFiles + files.countP (eligible m) := by
  intro files
  induction files with
  | nil => intro st; simp
  | cons f fs ih =>
    intro st
    rw [List.foldl_cons, ih, scanStep_total, List.countP_cons]
    by_cases he : eligible m f = true
    all_goals simp [he]
    all_goals omega

/-- The worker pool's effect on the statistics: each consumed job increments
ProcessedFiles once, TotalFiles and FailedFiles are untouched, and the
drained results are the per-job transferFile errors in order. -/
theorem runWorkers_props (verify : Bool) :
    ∀ (jobs : List FileTransfer) (stats : TransferStats),
      (runWorkers verify stats jobs).1.ProcessedFiles = stats.ProcessedFiles + jobs.length
    ∧ (runWorkers verify stats jobs).1.TotalFiles = stats.TotalFiles
    ∧ (runWorkers verify stats jobs).1.FailedFiles = stats.FailedFiles
    ∧ (runWorkers verify stats jobs).2 = jobs.map (fun j => (transferFile verify j.world).err) := by
  intro jobs
  induction jobs with
  | nil => intro stats; exact ⟨rfl, rfl, rfl, rfl⟩
  | cons j rest ih =>
    intro stats
    obtain ⟨i1, i2, i3, i4⟩ := ih (processJob verify stats j).1
    refine ⟨?_, ?_, ?_, ?_⟩
    · show (runWorkers verify (processJob verify stats j).1 rest).1.ProcessedFiles = _
      rw [i1]
      simp [processJob, List.length_cons]
      omega
    · show (runWorkers verify (processJob verify stats j).1 rest).1.TotalFiles = _
      rw [i2]
      simp [processJob]
    · show (runWorkers verify (processJob verify stats j).1 rest).1.FailedFiles = _
      rw [i3]
      simp [processJob]
    · show (processJob verify stats j).2
          :: (runWorkers verify (processJob verify stats j).1 rest).2 = _
      rw [i4]
      simp [processJob]

/-! ## Claim theorems about the run -/

/-- C6: At run completion ProcessedFiles equals TotalFiles and FailedFiles is
at most ProcessedFiles; the final TotalFiles is exactly its value at dispatch
start (the scan loop is the only writer); and after any number k of job
completions the intermediate ProcessedFiles never exceeds TotalFiles. -/
theorem stats_invariant (m : ManagerModel) (files : List SourceFile) :
    (TransferFiles m files).1.ProcessedFiles = (TransferFiles m files).1.TotalFiles
  ∧ (TransferFiles m files).1.FailedFiles ≤ (TransferFiles m files).1.ProcessedFiles
  ∧ (TransferFiles m files).1.TotalFiles = (scanState m files).stats.TotalFiles
  ∧ ∀ k : Nat,
      (runWorkers m.verify (scanState m files).stats
          ((jobsQueue m files).take k)).1.ProcessedFiles
        ≤ (scanState m files).stats.TotalFiles := by
  obtain ⟨h1, h2, h3, -, -, -, -⟩ := scan_inv m files
  obtain ⟨w1, w2, w3, w4⟩ := runWorkers_props m.verify (jobsQueue m files) (scanState m files).stats
  have hTF : (TransferFiles m files).1
      = collectResults
          (runWorkers m.verify (scanState m files).stats (jobsQueue m files)).1
          (runWorkers m.verify (scanState m files).stats (jobsQueue m files)).2 := rfl
  have hqlen : (jobsQueue m files).length
      = (scanState m files).priorityFiles.length + (scanState m files).normalFiles.length := by
    unfold jobsQueue
    exact List.length_append _ _
  refine ⟨?_, ?_, ?_, ?_⟩
  · rw [hTF]
    show (runWorkers m.verify (scanState m files).stats (jobsQueue m files)).1.ProcessedFiles
        = (runWorkers m.verify (scanState m files).stats (jobsQueue m files)).1.TotalFiles
    rw [w1, w2, h1, h3, hqlen]
    omega
  · rw [hTF]
    show (runWorkers m.verify (scanState m files).stats (jobsQueue m files)).1.FailedFiles
          + ((runWorkers m.verify (scanState m files).stats (jobsQueue m files)).2.countP
              (fun r => r.isSome))
        ≤ (runWorkers m.verify (scanState m files).stats (jobsQueue m files)).1.ProcessedFiles
    rw [w1, w3, w4, h1, h2, List.countP_map]
    have hle := List.countP_le_length
      ((fun r : Option String => r.isSome) ∘ fun j : FileTransfer => (transferFile m.verify j.world).err)
      (l := jobsQueue m files)
    omega
  · rw [hTF]
    show (runWorkers m.verify (scanState m files).stats (jobsQueue m files)).1.TotalFiles
        = (scanState m files).stats.TotalFiles
    exact w2
  · intro k
    obtain ⟨t1, -, -, -⟩ :=
      runWorkers_props m.verify ((jobsQueue m files).take k) (scanState m files).stats
    rw [t1, h1, h3, List.length_take, hqlen]
    omega

/-- C2 amended: TransferFiles itself never returns an error, so no per-file
failure reaches the device-level caller; FailedFiles counts exactly the
dispatched jobs whose transferFile call fails (open/create/copy/verify
failures); and the dispatched jobs are exactly the files whose stat succeeds,
that are not directories, and whose destination resolution succeeds —
versioning exhaustion (like a stat failure) makes the file skipped before
dispatch, logged but never counted. -/
theorem perFile_failures_absorbed (m : ManagerModel) (files : List SourceFile) :
    (TransferFiles m files).2.2 = none
  ∧ (TransferFiles m files).1.FailedFiles
      = (jobsQueue m files).countP (fun j => (transferFile m.verify j.world).err.isSome)
  ∧ (jobsQueue m files).length = files.countP (eligible m) := by
  obtain ⟨-, h2, h3, -, -, -, -⟩ := scan_inv m files
  obtain ⟨-, -, w3, w4⟩ := runWorkers_props m.verify (jobsQueue m files) (scanState m files).stats
  refine ⟨rfl, ?_, ?_⟩
  · have hTF : (TransferFiles m files).1
        = collectResults
            (runWorkers m.verify (scanState m files).stats (jobsQueue m files)).1
            (runWorkers m.verify (scanState m files).stats (jobsQueue m files)).2 := rfl
    rw [hTF]
    show (runWorkers m.verify (scanState m files).stats (jobsQueue m files)).1.FailedFiles
          + ((runWorkers m.verify (scanState m files).stats (jobsQueue m files)).2.countP
              (fun r => r.isSome))
        = (jobsQueue m files).countP (fun j => (transferFile m.verify j.world).err.isSome)
    rw [w3, w4, h2, List.countP_map]
    simp only [Function.comp_def]
    omega
  · have hcount : (scanState m files).stats.TotalFiles = files.countP (eligible m) := by
      unfold scanState
      rw [scan_total_count]
      simp [initialStats]
    rw [← hcount, h3]
    unfold jobsQueue
    rw [List.length_append]

/-- C2 counterexample: a run over the single regular file bad[file.mp4, whose
destination resolution exhausts the version loop ("too many versions", a
versioning-exhaustion per-file failure). The claim says such a failure is
counted in FailedFiles; the code skips the file before dispatch, so the final
statistics count no failed file at all (and no file, period), while the run
still completes without a propagated error. -/
theorem versioning_exhaustion_not_counted :
    specGetDest "bad[file.mp4"
        = Except.error "too many versions of file: /mnt/storage/Unsorted/bad[file.mp4"
  ∧ (TransferFiles specManager [badGlobFile]).1.FailedFiles = 0
  ∧ (TransferFiles specManager [badGlobFile]).1.TotalFiles = 0
  ∧ (TransferFiles specManager [badGlobFile]).2.2 = none := by
  have hscan : scanState specManager [badGlobFile]
      = { priorityFiles := [], normalFiles := [], stats := initialStats } := by
    unfold scanState
    rw [List.foldl_cons, List.foldl_nil]
    unfold scanStep
    rw [if_neg (by decide), if_neg (by decide)]
    have hg : specManager.getDest badGlobFile.path
        = Except.error "too many versions of file: /mnt/storage/Unsorted/bad[file.mp4" :=
      specGetDest_badfile
    rw [hg]
  refine ⟨specGetDest_badfile, ?_, ?_, rfl⟩
  · show (collectResults
        (runWorkers specManager.verify (scanState specManager [badGlobFile]).stats
          ((scanState specManager [badGlobFile]).priorityFiles
            ++ (scanState specManager [badGlobFile]).normalFiles)).1
        (runWorkers specManager.verify (scanState specManager [badGlobFile]).stats
          ((scanState specManager [badGlobFile]).priorityFiles
            ++ (scanState specManager [badGlobFile]).normalFiles)).2).FailedFiles = 0
    rw [hscan]
    rfl
  · show (collectResults
        (runWorkers specManager.verify (scanState specManager [badGlobFile]).stats
          ((scanState specManager [badGlobFile]).priorityFiles
            ++ (scanState specManager [badGlobFile]).normalFiles)).1
        (runWorkers specManager.verify (scanState specManager [badGlobFile]).stats
          ((scanState specManager [badGlobFile]).priorityFiles
            ++ (scanState specManager [badGlobFile]).normalFiles)).2).TotalFiles = 0
    rw [hscan]
    rfl

/-- C5: Every enqueued job's Priority flag is the isPriorityFile decision on
its source file's base name; isPriorityFile holds exactly when some configured
priority value is a (case-sensitive, exact) leading segment of the name; and
the enqueue order splits into the priority jobs followed by the normal jobs,
for every input file list. -/
theorem priority_partition_and_order (m : ManagerModel) (files : List SourceFile) :
    ListAll (fun job => job.Priority
        = isPriorityFile m.priorityValues (filepathBase job.SourcePath)) (jobsQueue m files)
  ∧ (∀ (vals : List String) (name : String),
        isPriorityFile vals name = true ↔ ∃ pre, pre ∈ vals ∧ pre.data <+: name.data)
  ∧ ∃ pj nj, jobsQueue m files = pj ++ nj
      ∧ ListAll (fun j => j.Priority = true) pj
      ∧ ListAll (fun j => j.Priority = false) nj := by
  obtain ⟨-, -, -, h4, h5, h6, h7⟩ := scan_inv m files
  refine ⟨?_, ?_, ?_⟩
  · exact listAll_append.2 ⟨h6, h7⟩
  · intro vals name
    unfold isPriorityFile
    rw [List.any_eq_true]
    constructor
    · rintro ⟨pre, hmem, hp⟩
      rw [Bool.and_eq_true, decide_eq_true_eq, beq_iff_eq] at hp
      exact ⟨pre, hmem, List.prefix_iff_eq_take.2 hp.2.symm⟩
    · rintro ⟨pre, hmem, hp⟩
      refine ⟨pre, hmem, ?_⟩
      rw [Bool.and_eq_true, decide_eq_true_eq, beq_iff_eq]
      exact ⟨hp.length_le, (List.prefix_iff_eq_take.1 hp).symm⟩
  · exact ⟨(scanState m files).priorityFiles, (scanState m files).normalFiles, rfl, h4, h5⟩

/-! ## Classifier lemmas and remaining claims -/

/-- A successful match of the configured pattern captures four non-empty
token lists: the guards of the matcher reject empty first, second and
remainder groups, and the camera group is four characters long. -/
theorem matchCamChars_nonempty {s a b c d : List Char}
    (h : matchCamChars s = some (a, b, c, d)) :
    a ≠ [] ∧ b ≠ [] ∧ c ≠ [] ∧ d ≠ [] := by
  unfold matchCamChars at h
  split at h
  · exact Option.noConfusion h
  · split at h
    · exact Option.noConfusion h
    · next ha =>
      split at h
      · exact Option.noConfusion h
      · split at h
        · exact Option.noConfusion h
        · next hb =>
          split at h
          · next c1 c2 c3 c4 d' =>
            split at h
            · next hcond =>
              simp only [Option.some.injEq, Prod.mk.injEq] at h
              obtain ⟨ha', hb', hc', hd'⟩ := h
              rw [← ha', ← hb', ← hc', ← hd']
              refine ⟨ha, hb, by simp, ?_⟩
              intro hnil
              rw [hnil] at hcond
              simp at hcond
            · exact Option.noConfusion h
          · exact Option.noConfusion h

/-- String-level form of the non-empty-captures lemma. -/
theorem matchCam_nonempty {s a b c d : String}
    (h : matchCam s = some (a, b, c, d)) : a ≠ "" ∧ b ≠ "" ∧ c ≠ "" ∧ d ≠ "" := by
  unfold matchCam at h
  cases hm : matchCamChars s.data with
  | none => rw [hm] at h; exact Option.noConfusion h
  | some q =>
    obtain ⟨a', b', c', d'⟩ := q
    rw [hm] at h
    simp only [Option.some.injEq, Prod.mk.injEq] at h
    obtain ⟨rfl, rfl, rfl, rfl⟩ := h
    obtain ⟨n1, n2, n3, n4⟩ := matchCamChars_nonempty hm
    exact ⟨fun hc => n1 (congrArg String.data hc),
           fun hc => n2 (congrArg String.data hc),
           fun hc => n3 (congrArg String.data hc),
           fun hc => n4 (congrArg String.data hc)⟩

/-- C4: Over the configured 4-capture-group pattern (with any destination
root, template and fallback folder): when the extension-stripped remainder of
the base name matches, Parse reports Matched with exactly the four captured
tokens, all non-empty; when it does not match, Parse reports unmatched with no
tokens populated and the destination directory resolves to the fallback
folder under the destination root. -/
theorem parse_match_tokens (root template fallback path : String) :
    (∀ a b c d : String,
        matchCam (trimSuffix (filepathBase path) (filepathExt (filepathBase path)))
            = some (a, b, c, d) →
          (Parse (mkParser root template fallback) path).Matched = true
          ∧ (Parse (mkParser root template fallback) path).ProjectName = a
          ∧ (Parse (mkParser root template fallback) path).Client = b
          ∧ (Parse (mkParser root template fallback) path).Camera = c
          ∧ (Parse (mkParser root template fallback) path).ClipNumber = d
          ∧ a ≠ "" ∧ b ≠ "" ∧ c ≠ "" ∧ d ≠ "")
  ∧ (matchCam (trimSuffix (filepathBase path) (filepathExt (filepathBase path))) = none →
        (Parse (mkParser root template fallback) path).Matched = false
        ∧ (Parse (mkParser root template fallback) path).ProjectName = ""
        ∧ (Parse (mkParser root template fallback) path).Client = ""
        ∧ (Parse (mkParser root template fallback) path).Camera = ""
        ∧ (Parse (mkParser root template fallback) path).ClipNumber = ""
        ∧ GetDestinationPath (mkParser root template fallback)
            (Parse (mkParser root template fallback) path)
            = filepathJoin root fallback) := by
  constructor
  · intro a b c d h
    obtain ⟨n1, n2, n3, n4⟩ := matchCam_nonempty h
    have hpat : (mkParser root template fallback).pattern.findSubmatch4
        (trimSuffix (filepathBase path) (filepathExt (filepathBase path)))
          = some (a, b, c, d) := h
    simp only [Parse, hpat]
    refine ⟨?_, ?_, ?_, ?_, ?_, n1, n2, n3, n4⟩ <;> trivial
  · intro h
    have hpat : (mkParser root template fallback).pattern.findSubmatch4
        (trimSuffix (filepathBase path) (filepathExt (filepathBase path))) = none := h
    simp only [Parse, hpat]
    refine ⟨?_, ?_, ?_, ?_, ?_, ?_⟩ <;> trivial

/-- C4 witness: both branches at concrete inputs — a matching file name with
its four tokens, and a non-matching one resolving to the fallback folder. -/
theorem parse_match_tokens_witness :
    ((Parse specParser "A_B_ACam_x.mp4").Matched = true
      ∧ (Parse specParser "A_B_ACam_x.mp4").ProjectName = "A"
      ∧ (Parse specParser "A_B_ACam_x.mp4").Client = "B"
      ∧ (Parse specParser "A_B_ACam_x.mp4").Camera = "ACam"
      ∧ (Parse specParser "A_B_ACam_x.mp4").ClipNumber = "x"
      ∧ "A" ≠ "" ∧ "B" ≠ "" ∧ "ACam" ≠ "" ∧ "x" ≠ "")
  ∧ ((Parse specParser "zzz.mp4").Matched = false
      ∧ (Parse specParser "zzz.mp4").ProjectName = ""
      ∧ (Parse specParser "zzz.mp4").Client = ""
      ∧ (Parse specParser "zzz.mp4").Camera = ""
      ∧ (Parse specParser "zzz.mp4").ClipNumber = ""
      ∧ GetDestinationPath specParser (Parse specParser "zzz.mp4")
          = filepathJoin "/mnt/storage" "Unsorted") :=
  ⟨(parse_match_tokens "/mnt/storage" "{client}/{project}/{camera}" "Unsorted"
      "A_B_ACam_x.mp4").1 "A" "B" "ACam" "x" (by decide),
   (parse_match_tokens "/mnt/storage" "{client}/{project}/{camera}" "Unsorted"
      "zzz.mp4").2 (by decide)⟩

/-- Two paths with the same base name parse to the same FileInfo apart from
the recorded original path. -/
theorem Parse_of_same_base (p : Parser) (path1 path2 : String)
    (h : filepathBase path1 = filepathBase path2) :
    Parse p path1 = { Parse p path2 with OriginalPath := path1 } := by
  unfold Parse
  rw [h]
  dsimp only
  cases hm : p.pattern.findSubmatch4
      (trimSuffix (filepathBase path2) (filepathExt (filepathBase path2))) with
  | none => rfl
  | some q =>
    obtain ⟨m1, m2, m3, m4⟩ := q
    rfl

/-- C9: Classification is a pure function of the base file name and the
configuration: any two paths with the same base name parse to the same
matched flag, tokens and extension, and resolve to the same destination
directory and full destination path, for every parser (pattern, template,
fallback, root). -/
theorem classification_deterministic (p : Parser) (path1 path2 : String)
    (h : filepathBase path1 = filepathBase path2) :
    (Parse p path1).FileName = (Parse p path2).FileName
  ∧ (Parse p path1).Matched = (Parse p path2).Matched
  ∧ (Parse p path1).ProjectName = (Parse p path2).ProjectName
  ∧ (Parse p path1).Client = (Parse p path2).Client
  ∧ (Parse p path1).Camera = (Parse p path2).Camera
  ∧ (Parse p path1).ClipNumber = (Parse p path2).ClipNumber
  ∧ (Parse p path1).Extension = (Parse p path2).Extension
  ∧ GetDestinationPath p (Parse p path1) = GetDestinationPath p (Parse p path2)
  ∧ GetFullDestinationPath p (Parse p path1) = GetFullDestinationPath p (Parse p path2) := by
  rw [Parse_of_same_base p path1 path2 h]
  exact ⟨rfl, rfl, rfl, rfl, rfl, rfl, rfl, rfl, rfl⟩

/-- C9 witness: two paths sharing the base name clip_x.mp4 resolve to the
same full destination path. -/
theorem classification_deterministic_witness :
    GetFullDestinationPath specParser (Parse specParser "/a/clip_x.mp4")
      = GetFullDestinationPath specParser (Parse specParser "/b/c/clip_x.mp4") :=
  (classification_deterministic specParser "/a/clip_x.mp4" "/b/c/clip_x.mp4"
      (by decide)).2.2.2.2.2.2.2.2

end AutoIngest
